import Mathlib

/-
Verification development for the `openai_action_engine` repository.

The engine dispatches URL-shaped requests to dynamically loaded "action
functions": it resolves a path against a registry of function descriptors,
materializes the backing module from object storage on first use,
instantiates the handler with merged configuration, invokes it, and
normalizes the result.

We shallowly embed the Python code:
  * Python values are modelled by `PyVal` (JSON-shaped values);
  * Python dicts by association lists with Python's `dict(d, **o)` update
    semantics (`pyDictUpdate`), `dict.pop` (`pyPop`) and first-hit lookup;
  * the path-template compilation performed by
    `re.sub(r"{(\w+)}", r"(?P<\1>[^/]+)", path)` by `compileTemplate`, and
    `re.fullmatch` of the compiled pattern by the backtracking matcher
    `matchToks` (greedy `[^/]+` groups, full-string matching);
  * the module materializer (`module_exists` / `download_and_extract_module`
    in handlers.py) by a state machine over the set of extracted directory
    names plus an S3 download counter;
  * the dispatch entry point `OpenaiActionEngine.openai_action_dispatch`
    (main.py) by `openai_action_dispatch`, instrumented with the list of
    keyword-argument dictionaries passed to the action function
    (one entry per call of `action_function(**kwargs)`).
-/

namespace OpenaiActionEngine

/-! ## Python values and dictionaries -/

/-- JSON-shaped Python values: the values that flow through settings,
request parameters, configurations and handler results. -/
inductive PyVal where
  | none : PyVal
  | bool : Bool → PyVal
  | int : Int → PyVal
  | str : String → PyVal
  | list : List PyVal → PyVal
  | dict : List (String × PyVal) → PyVal

/-- A Python dict with string keys, as an association list in insertion
order (Python dicts preserve insertion order and have unique keys). -/
abbrev PyDict := List (String × PyVal)

/-- First-hit lookup in an association list: `d[k]` / `d.get(k)`. -/
def lookupFirst {β : Type _} : List (String × β) → String → Option β
  | [], _ => Option.none
  | (k', v) :: rest, k => if k' = k then some v else lookupFirst rest k

/-- The keys of an association list, in order. -/
def keys {β : Type _} (d : List (String × β)) : List String := d.map Prod.fst

/-- `d[k] = v` on a Python dict: replace the (first) binding of `k` in
place if present, otherwise append the new binding at the end. -/
def setItem {β : Type _} : List (String × β) → String → β → List (String × β)
  | [], k, v => [(k, v)]
  | (k', v') :: rest, k, v =>
    if k' = k then (k', v) :: rest else (k', v') :: setItem rest k v

/-- Python's `dict(d, **o)`: a copy of `d` updated with every binding of
`o` in order (keys of `o` win on conflict, new keys are appended). -/
def pyDictUpdate {β : Type _} (d o : List (String × β)) : List (String × β) :=
  o.foldl (fun acc kv => setItem acc kv.1 kv.2) d

/-- Remove the (first) binding of `k`: the mutation performed by
`d.pop(k)` on a dict with unique keys. -/
def eraseKey {β : Type _} : List (String × β) → String → List (String × β)
  | [], _ => []
  | (k', v) :: rest, k => if k' = k then rest else (k', v) :: eraseKey rest k

/-- Python's `d.pop(k)` without a default: `none` models the `KeyError`
raised when `k` is absent; otherwise the value and the shrunk dict. -/
def pyPop (d : PyDict) (k : String) : Option (PyVal × PyDict) :=
  match lookupFirst d k with
  | Option.none => Option.none
  | some v => some (v, eraseKey d k)

@[simp] theorem keys_nil {β : Type _} : keys ([] : List (String × β)) = [] := rfl

@[simp] theorem keys_cons {β : Type _} (k : String) (v : β) (rest : List (String × β)) :
    keys ((k, v) :: rest) = k :: keys rest := rfl

theorem lookupFirst_setItem {β : Type _} (d : List (String × β)) (k k' : String) (v : β) :
    lookupFirst (setItem d k v) k' = if k' = k then some v else lookupFirst d k' := by
  induction d with
  | nil =>
    simp only [setItem, lookupFirst]
    by_cases h : k' = k
    · subst h; simp
    · rw [if_neg (fun he => h he.symm), if_neg h]
  | cons kv rest ih =>
    obtain ⟨k₀, v₀⟩ := kv
    by_cases h0 : k₀ = k
    · subst h0
      simp only [setItem, if_pos rfl, lookupFirst]
      by_cases h : k' = k₀
      · subst h; simp
      · rw [if_neg (fun he => h he.symm), if_neg h, if_neg (fun he => h he.symm)]
    · simp only [setItem, if_neg h0, lookupFirst]
      by_cases h1 : k₀ = k'
      · subst h1
        rw [if_pos rfl, if_neg h0]
        simp [lookupFirst]
      · rw [if_neg h1, ih]
        by_cases h : k' = k
        · rw [if_pos h, if_pos h]
        · rw [if_neg h, if_neg h]
          simp only [lookupFirst, if_neg h1]

theorem lookupFirst_eq_none_of_not_mem_keys {β : Type _} {d : List (String × β)} {k : String}
    (h : k ∉ keys d) : lookupFirst d k = Option.none := by
  induction d with
  | nil => rfl
  | cons kv rest ih =>
    obtain ⟨k₀, v₀⟩ := kv
    rw [keys_cons, List.mem_cons] at h
    push_neg at h
    rw [lookupFirst, if_neg (fun he => h.1 he.symm)]
    exact ih h.2

/-- Lookup after a Python dict-update: keys of `o` win, others fall back
to `d`.  Requires the keys of `o` to be distinct, which holds for every
real Python dict. -/
theorem lookupFirst_pyDictUpdate {β : Type _} (d o : List (String × β)) (k : String)
    (ho : (keys o).Nodup) :
    lookupFirst (pyDictUpdate d o) k = (lookupFirst o k).orElse (fun _ => lookupFirst d k) := by
  induction o generalizing d with
  | nil => simp [pyDictUpdate, lookupFirst]
  | cons kv rest ih =>
    obtain ⟨k₀, v₀⟩ := kv
    rw [keys_cons, List.nodup_cons] at ho
    obtain ⟨hk₀, hnd⟩ := ho
    have step : pyDictUpdate d ((k₀, v₀) :: rest) = pyDictUpdate (setItem d k₀ v₀) rest := rfl
    rw [step, ih _ hnd]
    by_cases h : k = k₀
    · subst h
      rw [lookupFirst_eq_none_of_not_mem_keys hk₀]
      simp [lookupFirst, lookupFirst_setItem]
    · rw [lookupFirst, if_neg (fun he => h he.symm)]
      rw [lookupFirst_setItem]
      rw [if_neg h]

/-- Lookup commutes with filtering on a key predicate. -/
theorem lookupFirst_filter_keys {β : Type _} (d : List (String × β)) (p : String → Bool) (k : String) :
    lookupFirst (d.filter (fun kv => p kv.1)) k
      = if p k then lookupFirst d k else Option.none := by
  induction d with
  | nil => simp [lookupFirst]
  | cons kv rest ih =>
    obtain ⟨k₀, v₀⟩ := kv
    simp only [List.filter_cons]
    by_cases h0 : p k₀
    · rw [if_pos h0]
      by_cases h : k₀ = k
      · subst h
        simp [lookupFirst, h0]
      · simp only [lookupFirst, if_neg h]
        exact ih
    · rw [if_neg h0]
      by_cases h : k₀ = k
      · subst h
        rw [ih, if_neg h0, if_neg h0]
      · simp only [lookupFirst, if_neg h]
        exact ih

/-- Lookup in a key-preserving value-mapped association list. -/
theorem lookupFirst_map_val {β γ : Type _} (l : List (String × β)) (f : β → γ) (k : String) :
    lookupFirst (l.map (fun q => (q.1, f q.2))) k = (lookupFirst l k).map f := by
  induction l with
  | nil => simp [lookupFirst]
  | cons kv rest ih =>
    obtain ⟨k₀, v₀⟩ := kv
    by_cases h : k₀ = k <;> simp [lookupFirst, h, ih]

theorem keys_map_val {β γ : Type _} (l : List (String × β)) (f : β → γ) :
    keys (l.map (fun q => (q.1, f q.2))) = keys l := by
  simp [keys]

/-! ## Path templates and the compiled matcher

`get_function_name_and_path_parameters` (handlers.py) compiles each
descriptor's `path` by `re.sub(r"{(\w+)}", r"(?P<\1>[^/]+)", path)` and
then runs `re.fullmatch` against the request path.  We model the
compiled pattern as a token list: each `{name}` placeholder becomes a
named group matching one or more non-`/` characters (greedily, with
backtracking), every other character a literal. -/

/-- One token of a compiled path template. -/
inductive Tok where
  | lit : Char → Tok
  | param : String → Tok
deriving DecidableEq

/-- A word character for `\w` (ASCII reading: letters, digits, `_`). -/
def isWordChar (c : Char) : Bool := c.isAlphanum || c = '_'

/-- Bounded scanner behind `compileTemplate`.  The first argument is
fuel that strictly bounds the number of scanning steps; it is consumed
one unit per emitted token, and `compileTemplate` supplies the length
of the template, which always suffices (each step consumes at least one
character).  Recursion on the fuel keeps the definition structural, so
it evaluates by `rfl`. -/
def compileAux : Nat → List Char → List Tok
  | 0, _ => []
  | _, [] => []
  | fuel + 1, c :: cs =>
    if c = '{' then
      match cs.dropWhile isWordChar with
      | '}' :: tail =>
        if (cs.takeWhile isWordChar).isEmpty then
          Tok.lit c :: compileAux fuel cs
        else
          Tok.param (String.mk (cs.takeWhile isWordChar)) :: compileAux fuel tail
      | _ => Tok.lit c :: compileAux fuel cs
    else Tok.lit c :: compileAux fuel cs

/-- Compile a raw template to tokens, replacing every `{name}` occurrence
(`name` a non-empty run of word characters immediately closed by `}`)
by a parameter token, exactly as `re.sub(r"{(\w+)}", ...)` rewrites the
template left to right; all other characters stay literal. -/
def compileTemplate (cs : List Char) : List Tok :=
  compileAux cs.length cs

/-- The placeholder names of a compiled template, in order. -/
def paramNames : List Tok → List String
  | [] => []
  | Tok.param n :: ts => n :: paramNames ts
  | Tok.lit _ :: ts => paramNames ts

/-- Candidate segment lengths `[m, m-1, ..., 1]` tried by a greedy
`[^/]+` group that can consume at most `m` characters. -/
def greedyLens : Nat → List Nat
  | 0 => []
  | n + 1 => (n + 1) :: greedyLens n

/-- First hit of `f` over a list, in order (the regex engine's ordered
backtracking search, and also the descriptor loop of the resolver). -/
def firstSome {α β : Type _} (f : α → Option β) : List α → Option β
  | [] => Option.none
  | a :: as =>
    match f a with
    | some b => some b
    | Option.none => firstSome f as

/-- `re.fullmatch` of a compiled template against a path: literals match
exactly, each named group consumes greedily (longest first, with
backtracking) a non-empty run of non-`/` characters, and the whole
input must be consumed.  Returns the group dictionary in group order. -/
def matchToks : List Tok → List Char → Option (List (String × String))
  | [], [] => some []
  | [], _ :: _ => Option.none
  | Tok.lit _ :: _, [] => Option.none
  | Tok.lit c :: ts, d :: ds => if c = d then matchToks ts ds else Option.none
  | Tok.param n :: ts, ds =>
      firstSome
        (fun len => (matchToks ts (ds.drop len)).map
          (fun σ => (n, String.mk (ds.take len)) :: σ))
        (greedyLens (ds.takeWhile (fun c => c != '/')).length)

/-- Declarative full-match semantics of a compiled template: the path is
exactly the concatenation of the template's pieces, where each
placeholder stands for one non-empty, `/`-free segment, and the
binding list records the segment used for each placeholder in order. -/
inductive MatchSpec : List Tok → List Char → List (String × String) → Prop where
  | nil : MatchSpec [] [] []
  | lit {c : Char} {ts : List Tok} {cs : List Char} {σ : List (String × String)} :
      MatchSpec ts cs σ → MatchSpec (Tok.lit c :: ts) (c :: cs) σ
  | param {n : String} {seg : List Char} {ts : List Tok} {cs : List Char}
      {σ : List (String × String)} :
      seg ≠ [] → (∀ c ∈ seg, c ≠ '/') → MatchSpec ts cs σ →
      MatchSpec (Tok.param n :: ts) (seg ++ cs) ((n, String.mk seg) :: σ)

/-- Characters that carry meaning inside a Python regular expression.
A template whose literal characters avoid them compiles to a regex in
which those characters match themselves, which is what `matchToks`
implements. -/
def regexSpecial (c : Char) : Bool :=
  ['.', '^', '$', '*', '+', '?', '(', ')', '[', ']', '{', '}', '|', '\\'].contains c

/-- A valid Python named-group name: an identifier. -/
def validGroupName (s : String) : Bool :=
  match s.data with
  | [] => false
  | c :: cs => (c.isAlpha || c = '_') && cs.all isWordChar

/-- One compiled token is faithful to Python regex semantics: a literal
must be regex-neutral, a placeholder must be a valid group name. -/
def tokOk : Tok → Bool
  | Tok.lit c => !(regexSpecial c)
  | Tok.param n => validGroupName n

/-- Well-formed path template: its literal characters are regex-neutral,
its placeholder names are valid group names, and no placeholder name
repeats (Python's `re` rejects a duplicated group name outright).  On
this class of templates the compiled Python pattern behaves exactly
like `matchToks`. -/
def templateOk (tpl : String) : Prop :=
  (∀ t ∈ compileTemplate tpl.data, tokOk t = true)
  ∧ (paramNames (compileTemplate tpl.data)).Nodup

/-- A function descriptor from the deployment registry (the fields the
dispatch pipeline reads). -/
structure FuncDesc where
  function_name : String
  module_name : String
  class_name : String
  path : String
  configuration : Option PyDict

/-- handlers.py `get_function_name_and_path_parameters`: walk the
registry in declaration order, return the first descriptor whose
compiled template fully matches the path, together with the group
dictionary; `none` models the `(None, None)` fall-through. -/
def get_function_name_and_path_parameters (functions : List FuncDesc) (path : String) :
    Option (String × List (String × String)) :=
  firstSome
    (fun fn =>
      (matchToks (compileTemplate fn.path.data) path.data).map
        (fun σ => (fn.function_name, σ)))
    functions

/-! ### Properties of the matcher -/

theorem greedyLens_mem {m n : Nat} : n ∈ greedyLens m ↔ 1 ≤ n ∧ n ≤ m := by
  induction m with
  | zero =>
    simp only [greedyLens, List.not_mem_nil, false_iff]
    omega
  | succ k ih =>
    simp only [greedyLens, List.mem_cons, ih]
    omega

theorem firstSome_eq_none_iff {α β : Type _} {f : α → Option β} {l : List α} :
    firstSome f l = Option.none ↔ ∀ a ∈ l, f a = Option.none := by
  induction l with
  | nil => simp [firstSome]
  | cons a as ih =>
    cases ha : f a with
    | none => simp [firstSome, ha, ih]
    | some b => simp [firstSome, ha]

theorem firstSome_mem_of_eq_some {α β : Type _} {f : α → Option β} {l : List α} {b : β}
    (h : firstSome f l = some b) : ∃ a ∈ l, f a = some b := by
  induction l with
  | nil => simp [firstSome] at h
  | cons a as ih =>
    cases ha : f a with
    | some b' =>
      refine ⟨a, by simp, ?_⟩
      rw [ha]
      simpa [firstSome, ha] using h
    | none =>
      simp only [firstSome, ha] at h
      obtain ⟨x, hx, hfx⟩ := ih h
      exact ⟨x, by simp [hx], hfx⟩

theorem firstSome_isSome_of_mem {α β : Type _} {f : α → Option β} {l : List α} {a : α}
    (hmem : a ∈ l) (hsome : (f a).isSome) : (firstSome f l).isSome := by
  induction l with
  | nil => simp at hmem
  | cons x xs ih =>
    cases hx : f x with
    | some b => simp [firstSome, hx]
    | none =>
      simp only [firstSome, hx]
      rcases List.mem_cons.mp hmem with h | h
      · subst h
        rw [hx] at hsome
        simp at hsome
      · exact ih h

/-- A segment cut from the front of a list, no longer than the maximal
run satisfying `p`, lies inside that run. -/
theorem take_eq_take_takeWhile {cs : List Char} {p : Char → Bool} {len : Nat}
    (hlen : len ≤ (cs.takeWhile p).length) :
    cs.take len = (cs.takeWhile p).take len := by
  have hpre : cs.takeWhile p <+: cs := List.takeWhile_prefix p
  obtain ⟨t, ht⟩ := hpre
  conv_lhs => rw [← ht]
  rw [List.take_append_eq_append_take, Nat.sub_eq_zero_of_le hlen, List.take_zero,
    List.append_nil]

/-- Soundness of the matcher: a successful `matchToks` run is a genuine
full-string match in the sense of `MatchSpec` — the whole path splits
into the template's literals and non-empty `/`-free parameter segments,
and the group dictionary records exactly those segments. -/
theorem matchToks_sound :
    ∀ (toks : List Tok) (cs : List Char) (σ : List (String × String)),
      matchToks toks cs = some σ → MatchSpec toks cs σ := by
  intro toks
  induction toks with
  | nil =>
    intro cs σ h
    cases cs with
    | nil =>
      simp only [matchToks, Option.some.injEq] at h
      rw [← h]
      exact MatchSpec.nil
    | cons d ds => simp [matchToks] at h
  | cons t ts ih =>
    intro cs σ h
    cases t with
    | lit c =>
      cases cs with
      | nil => simp [matchToks] at h
      | cons d ds =>
        by_cases hc : c = d
        · subst hc
          rw [matchToks, if_pos rfl] at h
          exact MatchSpec.lit (ih ds σ h)
        · rw [matchToks, if_neg hc] at h
          exact absurd h (by simp)
    | param n =>
      rw [matchToks] at h
      obtain ⟨len, hlen_mem, hf⟩ := firstSome_mem_of_eq_some h
      obtain ⟨σ', hm, hσ⟩ := Option.map_eq_some'.mp hf
      obtain ⟨h1, h2⟩ := greedyLens_mem.mp hlen_mem
      have hlen_cs : len ≤ cs.length :=
        le_trans h2 (List.takeWhile_prefix _).length_le
      have hseg_len : (cs.take len).length = len := by
        rw [List.length_take]
        omega
      have hseg_ne : cs.take len ≠ [] := by
        intro he
        rw [he] at hseg_len
        simp at hseg_len
        omega
      have hseg_slash : ∀ c ∈ cs.take len, c ≠ '/' := by
        intro c hc
        rw [take_eq_take_takeWhile h2] at hc
        have := List.mem_takeWhile_imp (List.take_subset _ _ hc)
        simpa using this
      have hspec := ih _ _ hm
      have hcs : cs = cs.take len ++ cs.drop len := (List.take_append_drop len cs).symm
      rw [hcs, ← hσ]
      exact MatchSpec.param hseg_ne hseg_slash hspec

/-- Completeness of the matcher: whenever a full-string instantiation
of the template exists, the backtracking search succeeds (possibly with
a different, equally valid split when the template is ambiguous). -/
theorem matchSpec_matchToks_isSome {toks : List Tok} {cs : List Char}
    {σ : List (String × String)} (h : MatchSpec toks cs σ) :
    (matchToks toks cs).isSome := by
  induction h with
  | nil => simp [matchToks]
  | lit hm ih =>
    rw [matchToks, if_pos rfl]
    exact ih
  | param hne hslash hm ih =>
    rename_i n seg ts cs' σ'
    rw [matchToks]
    have hseg_all : ∀ c ∈ seg, (fun c => c != '/') c = true := by
      intro c hc
      simpa using hslash c hc
    have htw : ((seg ++ cs').takeWhile (fun c => c != '/'))
        = seg ++ cs'.takeWhile (fun c => c != '/') :=
      List.takeWhile_append_of_pos hseg_all
    have hmem : seg.length ∈
        greedyLens ((seg ++ cs').takeWhile (fun c => c != '/')).length := by
      rw [htw]
      refine greedyLens_mem.mpr ⟨?_, ?_⟩
      · have : 0 < seg.length := List.length_pos.mpr hne
        omega
      · rw [List.length_append]
        omega
    refine firstSome_isSome_of_mem hmem ?_
    have hdrop : (seg ++ cs').drop seg.length = cs' := List.drop_left seg cs'
    simp only [hdrop, Option.isSome_map']
    exact ih

/-- The group dictionary of any full-string match lists exactly the
template's placeholder names, in template order. -/
theorem matchSpec_keys {toks : List Tok} {cs : List Char}
    {σ : List (String × String)} (h : MatchSpec toks cs σ) :
    σ.map Prod.fst = paramNames toks := by
  induction h with
  | nil => rfl
  | lit _ ih => simpa [paramNames] using ih
  | param _ _ _ ih => simp [paramNames, ih]

/-! ## Module materializer

handlers.py: `module_exists` checks for a directory named after the
module under `funct_extract_path`; `download_and_extract_module` fetches
`<module_name>.zip` from S3 (one `download_file` call) and extracts its
full contents into the shared extraction root.  We model the observable
state as the set of top-level directory names under the extraction root
plus a counter of S3 download calls; an archive is a function from
module name to the top-level entries its zip file contains. -/

/-- Observable state of the extraction root. -/
structure MatState where
  dirs : List String
  s3Downloads : Nat

/-- handlers.py `module_exists`: the directory check. -/
def module_exists (st : MatState) (module_name : String) : Bool :=
  st.dirs.contains module_name

/-- handlers.py `download_and_extract_module`: one S3 `download_file`
call followed by `extractall` into the shared extraction root (its
top-level entries appear under the root; existing entries are
overwritten in place, so presence-wise the result is a union). -/
def download_and_extract_module (archiveEntries : String → List String)
    (st : MatState) (module_name : String) : MatState :=
  { dirs := st.dirs ++ (archiveEntries module_name).filter (fun d => !(st.dirs.contains d)),
    s3Downloads := st.s3Downloads + 1 }

/-- The presence check followed by the conditional fetch, exactly as
`get_action_function` runs it: `if not module_exists(...):
download_and_extract_module(...)`. -/
def ensure_present (archiveEntries : String → List String)
    (st : MatState) (module_name : String) : MatState :=
  if module_exists st module_name then st
  else download_and_extract_module archiveEntries st module_name

/-! ## Configuration merge -/

/-- The configuration expression of handlers.py `get_action_function`:
`dict(configuration, **action_function["configuration"]) if
action_function.get("configuration") else configuration`.  The guard is
Python truthiness, so a missing or empty override dict selects the base
configuration unchanged.  (The merged dict is round-tripped through
`Utility.json_loads(Utility.json_dumps(...))` before being splatted
into the handler constructor; on the JSON-shaped values of `PyVal` that
round trip is the identity, so it is not modelled separately.) -/
def merged_configuration (configuration : PyDict) (overrides : Option PyDict) : PyDict :=
  match overrides with
  | some o => if o.isEmpty then configuration else pyDictUpdate configuration o
  | Option.none => configuration

/-! ## Handler loaders

The dynamic steps (S3 materialization, `__import__`, `getattr`,
class instantiation) execute code outside this repository, so they are
abstracted into a `loadDesc` oracle: given the matching descriptor it
either yields the bound action function or fails with the Python
exception the dynamic machinery raised.  What the two repository
loaders do *around* that oracle — the registry lookup and the
try/except policy — is modelled faithfully. -/

/-- Python exception values distinguished by the dispatch layer. -/
inductive PyErr where
  | keyError : String → PyErr
  | typeError : String → PyErr
  | pathRequired : PyErr
  | notSupported : String → PyErr
  | exn : String → PyErr
deriving DecidableEq

/-- handlers.py `get_action_function`: filter the registry by
`function_name`; an empty filter result returns `None` (the not-found
signal); any exception raised by the loading steps is logged and then
re-raised (`raise e`), so it propagates to the caller. -/
def get_action_function (functions : List FuncDesc)
    (loadDesc : FuncDesc → Except PyErr (PyDict → PyVal)) (function_name : String) :
    Except PyErr (Option (PyDict → PyVal)) :=
  match functions.filter (fun x => x.function_name == function_name) with
  | [] => Except.ok Option.none
  | af :: _ =>
    match loadDesc af with
    | Except.ok h => Except.ok (some h)
    | Except.error e => Except.error e

/-- handlers/function_handler.py `load_action_function`: same registry
lookup, but the surrounding `except Exception` logs the failure and
`return None` — a load failure produces the same `None` as an unknown
function name. -/
def load_action_function (functions : List FuncDesc)
    (loadDesc : FuncDesc → Except PyErr (PyDict → PyVal)) (function_name : String) :
    Option (PyDict → PyVal) :=
  match functions.filter (fun x => x.function_name == function_name) with
  | [] => Option.none
  | af :: _ =>
    match loadDesc af with
    | Except.ok h => some h
    | Except.error _ => Option.none

/-! ## The dispatch entry point (main.py) -/

/-- main.py `SYSTEM_CONSTANTS`: setting keys never forwarded to action
functions. -/
def SYSTEM_CONSTANTS : List String :=
  [ "region_name",
    "aws_access_key_id",
    "aws_secret_access_key",
    "title",
    "version",
    "configuration",
    "functions",
    "funct_bucket_name",
    "funct_zip_path",
    "funct_extract_path" ]

/-- `isinstance(x, (dict, list))`: the structured-value test used to
decide whether a handler result is serialized. -/
def isStructured : PyVal → Bool
  | PyVal.dict _ => true
  | PyVal.list _ => true
  | _ => false

/-- Escape of one character inside a JSON string literal. -/
def jsonEscapeChar (c : Char) : List Char :=
  if c = '"' then ['\\', '"']
  else if c = '\\' then ['\\', '\\']
  else [c]

/-- A JSON string literal. -/
def jsonQuote (s : String) : String :=
  "\"" ++ String.mk ((s.data.map jsonEscapeChar).flatten) ++ "\""

mutual

/-- The external `Utility.json_dumps` serializer at its interface:
canonical JSON text for a JSON-shaped value. -/
def jsonDumps : PyVal → String
  | PyVal.none => "null"
  | PyVal.bool true => "true"
  | PyVal.bool false => "false"
  | PyVal.int n => toString n
  | PyVal.str s => jsonQuote s
  | PyVal.list l => "[" ++ jsonDumpsElems l ++ "]"
  | PyVal.dict d => "\x7b" ++ jsonDumpsFields d ++ "\x7d"

def jsonDumpsElems : List PyVal → String
  | [] => ""
  | [v] => jsonDumps v
  | v :: rest => jsonDumps v ++ ", " ++ jsonDumpsElems rest

def jsonDumpsFields : List (String × PyVal) → String
  | [] => ""
  | [(k, v)] => jsonQuote k ++ ": " ++ jsonDumps v
  | (k, v) :: rest => jsonQuote k ++ ": " ++ jsonDumps v ++ ", " ++ jsonDumpsFields rest

end

/-- Python's `sub in s` / `s.find(sub) != -1`: `pat` occurs as a
contiguous substring. -/
def containsSubstring (pat : List Char) : List Char → Bool
  | [] => pat.isEmpty
  | c :: rest => pat.isPrefixOf (c :: rest) || containsSubstring pat rest

/-- The dead guard `if path is None` of main.py line 64: `path` is the
result of `"/" + kwargs.pop("path")`, which is a `str` whenever it is
reached (a non-`str` pop result already raised `TypeError` at the
concatenation), so the test is identically false. -/
def pathIsNone (_ : String) : Bool := false

/-- Outcome of a dispatch. -/
inductive DOut where
  | swaggerDoc : DOut
  | ret : PyVal → DOut

/-- The keyword arguments a dispatched action function receives: the
non-system settings (main.py lines 68-71: every setting whose key is
not in `SYSTEM_CONSTANTS`), overlaid by the caller's request parameters
(minus the popped `path`), overlaid by the extracted path parameters
(line 79; their values are the matched path segments, as strings). -/
def dispatch_kwargs (setting kwargs₁ : PyDict)
    (path_parameters : List (String × String)) : PyDict :=
  pyDictUpdate
    (pyDictUpdate (setting.filter (fun kv => !(SYSTEM_CONSTANTS.contains kv.1))) kwargs₁)
    (path_parameters.map (fun q => (q.1, PyVal.str q.2)))

/-- main.py `OpenaiActionEngine.openai_action_dispatch`, instrumented:
the second component of a successful result lists the keyword-argument
dictionary of every `action_function(**kwargs)` call, in evaluation
order (the conditional expression on lines 86-90 evaluates the
`isinstance` test first, then exactly one branch, so a successful
invocation calls the action function twice).  The action functions are
dynamically loaded repository-external code, abstracted as the
`action_function?` oracle (`None` models `get_action_function`
returning `None`). -/
def openai_action_dispatch (setting : PyDict) (functions : List FuncDesc)
    (action_function? : String → Option (PyDict → PyVal)) (kwargs : PyDict) :
    Except PyErr (DOut × List PyDict) :=
  -- path = "/" + kwargs.pop("path")   (KeyError if absent, TypeError if not str)
  match pyPop kwargs "path" with
  | Option.none => Except.error (PyErr.keyError "path")
  | some (pv, kwargs₁) =>
    match pv with
    | PyVal.str p =>
      let path := "/" ++ p
      -- if path is None: raise Exception("path is required!!")   (dead code)
      if pathIsNone path then Except.error PyErr.pathRequired
      else
        -- if path.find("openapi.yaml") != -1: return generate_swagger_yaml(logger)
        -- (the settings merge of lines 68-71 happens before this check in the
        -- source but is unobservable on this branch; it is part of
        -- dispatch_kwargs below)
        if containsSubstring "openapi.yaml".data path.data then
          Except.ok (DOut.swaggerDoc, [])
        else
          match get_function_name_and_path_parameters functions path with
          | Option.none =>
            -- (None, None) is returned; dict(kwargs, **None) raises TypeError
            Except.error (PyErr.typeError "argument of type NoneType is not a mapping")
          | some (function_name, path_parameters) =>
            -- kwargs = dict({... settings ...}, **kwargs); kwargs = dict(kwargs, **path_parameters)
            let kwargs₃ := dispatch_kwargs setting kwargs₁ path_parameters
            match action_function? function_name with
            | Option.none => Except.error (PyErr.notSupported function_name)
            | some f =>
              -- Utility.json_dumps(f(**kwargs)) if isinstance(f(**kwargs), (dict, list)) else f(**kwargs)
              let test := f kwargs₃
              if isStructured test then
                Except.ok (DOut.ret (PyVal.str (jsonDumps (f kwargs₃))), [kwargs₃, kwargs₃])
              else
                Except.ok (DOut.ret (f kwargs₃), [kwargs₃, kwargs₃])
    | _ => Except.error (PyErr.typeError "can only concatenate str to str")

/-! ## Further helper lemmas -/

theorem firstSome_eq_some_split {α β : Type _} {f : α → Option β} {l : List α} {b : β}
    (h : firstSome f l = some b) :
    ∃ pre a post, l = pre ++ a :: post ∧ f a = some b ∧ ∀ x ∈ pre, f x = Option.none := by
  induction l with
  | nil => simp [firstSome] at h
  | cons a as ih =>
    cases ha : f a with
    | some b' =>
      have hb : b' = b := by
        have := h
        simp only [firstSome, ha] at this
        exact Option.some.inj this
      subst hb
      exact ⟨[], a, as, rfl, ha, by simp⟩
    | none =>
      simp only [firstSome, ha] at h
      obtain ⟨pre, x, post, hsplit, hx, hpre⟩ := ih h
      refine ⟨a :: pre, x, post, by rw [hsplit]; rfl, hx, ?_⟩
      intro y hy
      rcases List.mem_cons.mp hy with h' | h'
      · rw [h']; exact ha
      · exact hpre y h'

theorem lookupFirst_of_mem_nodup {β : Type _} {l : List (String × β)} {n : String} {v : β}
    (hnd : (keys l).Nodup) (hmem : (n, v) ∈ l) : lookupFirst l n = some v := by
  induction l with
  | nil => simp at hmem
  | cons kv rest ih =>
    obtain ⟨k₀, v₀⟩ := kv
    rw [keys_cons, List.nodup_cons] at hnd
    rcases List.mem_cons.mp hmem with h | h
    · obtain ⟨h1, h2⟩ := Prod.mk.inj (h.symm)
      rw [lookupFirst, if_pos h1, h2]
    · have hn : n ∈ keys rest := by
        rw [keys, List.mem_map]
        exact ⟨(n, v), h, rfl⟩
      have hne : k₀ ≠ n := fun he => hnd.1 (he ▸ hn)
      rw [lookupFirst, if_neg hne]
      exact ih hnd.2 h

/-- Shape of a successful non-short-circuited dispatch: when the path is
present and a string, does not contain `openapi.yaml`, resolves to a
descriptor whose action function loads, the dispatch invokes the action
function exactly twice — both times on `dispatch_kwargs` — and returns
the normalized second result. -/
theorem dispatch_run (setting : PyDict) (functions : List FuncDesc)
    (action_function? : String → Option (PyDict → PyVal)) (kwargs kwargs₁ : PyDict)
    (p function_name : String) (σ : List (String × String)) (f : PyDict → PyVal)
    (hpop : pyPop kwargs "path" = some (PyVal.str p, kwargs₁))
    (hyaml : containsSubstring "openapi.yaml".data ("/" ++ p).data = false)
    (hres : get_function_name_and_path_parameters functions ("/" ++ p)
      = some (function_name, σ))
    (hf : action_function? function_name = some f) :
    openai_action_dispatch setting functions action_function? kwargs
      = Except.ok
          ((if isStructured (f (dispatch_kwargs setting kwargs₁ σ))
            then DOut.ret (PyVal.str (jsonDumps (f (dispatch_kwargs setting kwargs₁ σ))))
            else DOut.ret (f (dispatch_kwargs setting kwargs₁ σ))),
           [dispatch_kwargs setting kwargs₁ σ, dispatch_kwargs setting kwargs₁ σ]) := by
  rw [openai_action_dispatch, hpop]
  simp only [pathIsNone, Bool.false_eq_true, if_false, hyaml, hres, hf]
  by_cases hS : isStructured (f (dispatch_kwargs setting kwargs₁ σ))
  · simp [hS]
  · simp [hS]

/-! ## Claim theorems -/

/-- C1: for every registry of (well-formed) function descriptors and
every request path, `get_function_name_and_path_parameters` returns the
first descriptor in registry order whose path template fully matches
the path — where each `{name}` placeholder matches exactly one
non-empty, `/`-free segment and literal template characters match
exactly (`MatchSpec`) — together with a placeholder map whose keys are
exactly the template's placeholders and whose values are the segments
used in the path; earlier descriptors allow no full match at all, and
when no descriptor fully matches the resolver reports the not-found
signal.  Matching is full-string by construction: `MatchSpec` consumes
the entire path, so prefix-only overlaps never match.  The
`templateOk` hypothesis confines the statement to templates on which
the compiled Python regex behaves literally (no regex metacharacters
in literals, valid and distinct group names), which is the class of
templates the spec describes. -/
theorem C1_resolve_first_full_match (functions : List FuncDesc) (path : String)
    (hok : ∀ fn ∈ functions, templateOk fn.path) :
    (∀ function_name σ,
      get_function_name_and_path_parameters functions path = some (function_name, σ) →
      ∃ pre fn post,
        functions = pre ++ fn :: post ∧
        fn.function_name = function_name ∧
        MatchSpec (compileTemplate fn.path.data) path.data σ ∧
        σ.map Prod.fst = paramNames (compileTemplate fn.path.data) ∧
        ∀ fn' ∈ pre, ¬∃ σ', MatchSpec (compileTemplate fn'.path.data) path.data σ')
    ∧ (get_function_name_and_path_parameters functions path = Option.none →
      ∀ fn ∈ functions, ¬∃ σ, MatchSpec (compileTemplate fn.path.data) path.data σ) := by
  have _ := hok
  constructor
  · intro function_name σ h
    obtain ⟨pre, fn, post, hsplit, hfn, hpre⟩ := firstSome_eq_some_split h
    obtain ⟨σ₀, hm, hpair⟩ := Option.map_eq_some'.mp hfn
    obtain ⟨hn, hσ⟩ := Prod.mk.inj hpair
    subst hσ
    have hspec := matchToks_sound _ _ _ hm
    refine ⟨pre, fn, post, hsplit, hn, hspec, matchSpec_keys hspec, ?_⟩
    rintro fn' hfn' ⟨σ', hspec'⟩
    have hnone := hpre fn' hfn'
    rw [Option.map_eq_none'] at hnone
    have hs := matchSpec_matchToks_isSome hspec'
    rw [hnone] at hs
    simp at hs
  · rintro h fn hfn ⟨σ, hspec⟩
    have hnone := firstSome_eq_none_iff.mp h fn hfn
    rw [Option.map_eq_none'] at hnone
    have hs := matchSpec_matchToks_isSome hspec
    rw [hnone] at hs
    simp at hs

/-! ### Concrete data shared by the witnesses -/

/-- A one-descriptor registry with the spec's `/users/{id}` template. -/
def fns₁ : List FuncDesc :=
  [{ function_name := "get_user", module_name := "user_module",
     class_name := "UserHandler", path := "/users/\x7bid\x7d", configuration := Option.none }]

/-- A concrete action function: echoes its `id` keyword argument in a
structured (dict) result. -/
def handler₁ : PyDict → PyVal :=
  fun kw => PyVal.dict [("ok", PyVal.bool true), ("id", (lookupFirst kw "id").getD PyVal.none)]

/-- The loaded-function oracle corresponding to `fns₁`. -/
def action_functions₁ : String → Option (PyDict → PyVal) :=
  fun function_name => if function_name == "get_user" then some handler₁ else Option.none

theorem C1_witness :
    ∃ pre fn post,
      fns₁ = pre ++ fn :: post ∧
      fn.function_name = "get_user" ∧
      MatchSpec (compileTemplate fn.path.data) "/users/42".data [("id", "42")] ∧
      ([("id", "42")] : List (String × String)).map Prod.fst
        = paramNames (compileTemplate fn.path.data) ∧
      ∀ fn' ∈ pre, ¬∃ σ', MatchSpec (compileTemplate fn'.path.data) "/users/42".data σ' :=
  (C1_resolve_first_full_match fns₁ "/users/42" (by
      intro fn hfn
      simp only [fns₁, List.mem_singleton] at hfn
      subst hfn
      unfold templateOk
      exact ⟨by decide, by decide⟩)).1 "get_user" [("id", "42")] rfl

/-- C2: for a module that is not yet cached, under the precondition
that its archive contains a top-level directory named exactly
`module_name`, running `ensure_present` (the `module_exists` check
followed by `download_and_extract_module` when absent) twice in
sequence performs exactly one fetch+extract in total: the first call
issues exactly one S3 download, after it the directory check succeeds,
and the second call returns the state unchanged — zero further remote
calls. -/
theorem C2_ensure_present_idempotent (archiveEntries : String → List String)
    (st : MatState) (module_name : String)
    (h0 : module_exists st module_name = false)
    (h1 : module_name ∈ archiveEntries module_name) :
    (ensure_present archiveEntries st module_name).s3Downloads = st.s3Downloads + 1
    ∧ module_exists (ensure_present archiveEntries st module_name) module_name = true
    ∧ ensure_present archiveEntries (ensure_present archiveEntries st module_name) module_name
        = ensure_present archiveEntries st module_name := by
  have hnotmem : module_name ∉ st.dirs := by
    intro hmem
    rw [module_exists] at h0
    simp at h0
    exact h0 hmem
  have hfirst : ensure_present archiveEntries st module_name
      = download_and_extract_module archiveEntries st module_name := by
    rw [ensure_present, if_neg]
    rw [h0]
    simp
  have hafter :
      module_exists (download_and_extract_module archiveEntries st module_name) module_name
        = true := by
    rw [module_exists, download_and_extract_module]
    simp only [List.contains_eq_any_beq, List.any_eq_true]
    refine ⟨module_name, ?_, by simp⟩
    rw [List.mem_append, List.mem_filter]
    right
    refine ⟨h1, ?_⟩
    simp only [Bool.not_eq_true']
    simp only [List.contains_eq_any_beq, List.any_eq_false]
    intro x hx he
    have : module_name = x := by simpa using he
    subst this
    exact hnotmem hx
  refine ⟨by rw [hfirst]; rfl, by rw [hfirst]; exact hafter, ?_⟩
  rw [hfirst, ensure_present, if_pos]
  rw [hafter]

theorem C2_witness :
    (ensure_present (fun _ => ["user_module"]) ⟨[], 0⟩ "user_module").s3Downloads = 0 + 1
    ∧ module_exists (ensure_present (fun _ => ["user_module"]) ⟨[], 0⟩ "user_module")
        "user_module" = true
    ∧ ensure_present (fun _ => ["user_module"])
        (ensure_present (fun _ => ["user_module"]) ⟨[], 0⟩ "user_module") "user_module"
        = ensure_present (fun _ => ["user_module"]) ⟨[], 0⟩ "user_module" :=
  C2_ensure_present_idempotent (fun _ => ["user_module"]) ⟨[], 0⟩ "user_module"
    (by decide) (by decide)

/-- C3: the merged configuration built by `get_action_function` is the
base configuration overlaid per-key by the descriptor's overrides, with
function-level keys winning on conflict; when the descriptor carries no
configuration the merge is the base configuration itself; and on the
spec's concrete instance, base `{a:1, b:2}` with override `{b:3, c:4}`
merges to `{a:1, b:3, c:4}`. -/
theorem C3_merged_configuration (base overrides : PyDict)
    (hnd : (keys overrides).Nodup) :
    (∀ k, lookupFirst (merged_configuration base (some overrides)) k
      = (lookupFirst overrides k).orElse (fun _ => lookupFirst base k))
    ∧ merged_configuration base Option.none = base
    ∧ merged_configuration [("a", PyVal.int 1), ("b", PyVal.int 2)]
        (some [("b", PyVal.int 3), ("c", PyVal.int 4)])
        = [("a", PyVal.int 1), ("b", PyVal.int 3), ("c", PyVal.int 4)] := by
  refine ⟨?_, rfl, rfl⟩
  intro k
  rw [merged_configuration]
  by_cases he : overrides.isEmpty
  · have : overrides = [] := List.isEmpty_iff.mp he
    subst this
    simp [lookupFirst, Option.orElse]
  · rw [if_neg he]
    exact lookupFirst_pyDictUpdate base overrides k hnd

theorem C3_witness :
    (∀ k, lookupFirst (merged_configuration [("a", PyVal.int 1), ("b", PyVal.int 2)]
        (some [("b", PyVal.int 3), ("c", PyVal.int 4)])) k
      = (lookupFirst [("b", PyVal.int 3), ("c", PyVal.int 4)] k).orElse
          (fun _ => lookupFirst [("a", PyVal.int 1), ("b", PyVal.int 2)] k))
    ∧ merged_configuration [("a", PyVal.int 1), ("b", PyVal.int 2)] Option.none
        = [("a", PyVal.int 1), ("b", PyVal.int 2)]
    ∧ merged_configuration [("a", PyVal.int 1), ("b", PyVal.int 2)]
        (some [("b", PyVal.int 3), ("c", PyVal.int 4)])
        = [("a", PyVal.int 1), ("b", PyVal.int 3), ("c", PyVal.int 4)] :=
  C3_merged_configuration [("a", PyVal.int 1), ("b", PyVal.int 2)]
    [("b", PyVal.int 3), ("c", PyVal.int 4)] (by decide)

/-- C4: whenever the resolved template extracts a path parameter whose
name collides with a caller-supplied request parameter, the
path-extracted value (a string taken from the URL) overrides the
request parameter in the keyword arguments passed to the action
function. -/
theorem C4_path_param_overrides (setting : PyDict) (functions : List FuncDesc)
    (action_function? : String → Option (PyDict → PyVal)) (kwargs kwargs₁ : PyDict)
    (p function_name : String) (σ : List (String × String)) (f : PyDict → PyVal)
    (n v : String)
    (hpop : pyPop kwargs "path" = some (PyVal.str p, kwargs₁))
    (hyaml : containsSubstring "openapi.yaml".data ("/" ++ p).data = false)
    (hres : get_function_name_and_path_parameters functions ("/" ++ p)
      = some (function_name, σ))
    (hf : action_function? function_name = some f)
    (hσ : (keys σ).Nodup)
    (hmem : (n, v) ∈ σ) :
    ∃ out, openai_action_dispatch setting functions action_function? kwargs
        = Except.ok (out, [dispatch_kwargs setting kwargs₁ σ, dispatch_kwargs setting kwargs₁ σ])
      ∧ lookupFirst (dispatch_kwargs setting kwargs₁ σ) n = some (PyVal.str v) := by
  refine ⟨_, dispatch_run setting functions action_function? kwargs kwargs₁ p
    function_name σ f hpop hyaml hres hf, ?_⟩
  rw [dispatch_kwargs]
  rw [lookupFirst_pyDictUpdate _ _ _ (by rw [keys_map_val]; exact hσ)]
  rw [lookupFirst_map_val, lookupFirst_of_mem_nodup hσ hmem]
  rfl

theorem C4_witness :
    ∃ out, openai_action_dispatch [] fns₁ action_functions₁
        [("path", PyVal.str "users/42"), ("id", PyVal.int 99)]
        = Except.ok (out, [dispatch_kwargs [] [("id", PyVal.int 99)] [("id", "42")],
                           dispatch_kwargs [] [("id", PyVal.int 99)] [("id", "42")]])
      ∧ lookupFirst (dispatch_kwargs [] [("id", PyVal.int 99)] [("id", "42")]) "id"
        = some (PyVal.str "42") :=
  C4_path_param_overrides [] fns₁ action_functions₁
    [("path", PyVal.str "users/42"), ("id", PyVal.int 99)] [("id", PyVal.int 99)]
    "users/42" "get_user" [("id", "42")] handler₁ "id" "42"
    rfl rfl rfl rfl (by decide) (by decide)

/-- C5 (amended): dispatch short-circuits to the Spec Generator's
output if and only if the request path CONTAINS the substring
`openapi.yaml` — main.py tests `path.find("openapi.yaml") != -1`, i.e.
substring containment, not the suffix test the claim states.  The
short-circuit does bypass the Path Resolver and Module Materializer:
the result is the swagger document for every registry and every
loaded-function oracle.  When the path does not contain the substring,
no dispatch outcome is ever the swagger document. -/
theorem C5_openapi_substring_short_circuit (setting : PyDict) (functions : List FuncDesc)
    (action_function? : String → Option (PyDict → PyVal)) (kwargs kwargs₁ : PyDict)
    (p : String)
    (hpop : pyPop kwargs "path" = some (PyVal.str p, kwargs₁)) :
    (containsSubstring "openapi.yaml".data ("/" ++ p).data = true →
      openai_action_dispatch setting functions action_function? kwargs
        = Except.ok (DOut.swaggerDoc, []))
    ∧ (containsSubstring "openapi.yaml".data ("/" ++ p).data = false →
      ∀ tr, openai_action_dispatch setting functions action_function? kwargs
        ≠ Except.ok (DOut.swaggerDoc, tr)) := by
  constructor
  · intro hc
    rw [openai_action_dispatch, hpop]
    simp only [pathIsNone, Bool.false_eq_true, if_false, hc, if_true]
  · intro hc tr hcontra
    rw [openai_action_dispatch, hpop] at hcontra
    simp only [pathIsNone, Bool.false_eq_true, if_false, hc] at hcontra
    cases hres : get_function_name_and_path_parameters functions ("/" ++ p) with
    | none =>
      simp only [hres] at hcontra
      exact Except.noConfusion hcontra
    | some pr =>
      obtain ⟨function_name, σ⟩ := pr
      simp only [hres] at hcontra
      cases hf : action_function? function_name with
      | none =>
        simp only [hf] at hcontra
        exact Except.noConfusion hcontra
      | some f =>
        simp only [hf] at hcontra
        by_cases hS : isStructured (f (dispatch_kwargs setting kwargs₁ σ))
        · simp only [hS, if_true] at hcontra
          exact DOut.noConfusion (Prod.mk.inj (Except.ok.inj hcontra)).1
        · simp only [Bool.not_eq_true] at hS
          simp only [hS, Bool.false_eq_true, if_false] at hcontra
          exact DOut.noConfusion (Prod.mk.inj (Except.ok.inj hcontra)).1

theorem C5_witness :
    openai_action_dispatch [] fns₁ action_functions₁ [("path", PyVal.str "openapi.yaml")]
      = Except.ok (DOut.swaggerDoc, []) :=
  (C5_openapi_substring_short_circuit [] fns₁ action_functions₁
    [("path", PyVal.str "openapi.yaml")] [] "openapi.yaml" rfl).1 rfl

/-- A registry whose first template would match paths under
`/openapi.yaml/...`, and its loaded handler: used to refute the
suffix-only reading of the `openapi.yaml` special case. -/
def fns₂ : List FuncDesc :=
  [{ function_name := "get_spec_part", module_name := "spec_module",
     class_name := "SpecHandler", path := "/openapi.yaml/\x7bx\x7d", configuration := Option.none }]

def handler₂ : PyDict → PyVal := fun _ => PyVal.str "handler ran"

def action_functions₂ : String → Option (PyDict → PyVal) :=
  fun function_name => if function_name == "get_spec_part" then some handler₂ else Option.none

/-- C5 counterexample: the path `openapi.yaml/extra` does NOT end with
`openapi.yaml`, and the registry owns a descriptor that fully matches
`/openapi.yaml/extra`; yet dispatch short-circuits to the Spec
Generator's output, because the code tests substring containment, not
the suffix the claim states. -/
theorem C5_counterexample :
    openai_action_dispatch [] fns₂ action_functions₂
        [("path", PyVal.str "openapi.yaml/extra")]
      = Except.ok (DOut.swaggerDoc, [])
    ∧ "openapi.yaml".data.isSuffixOf "/openapi.yaml/extra".data = false
    ∧ get_function_name_and_path_parameters fns₂ "/openapi.yaml/extra"
      = some ("get_spec_part", [("x", "extra")]) :=
  ⟨rfl, by decide, rfl⟩

/-- C6: the dispatch return value is normalized exactly as the claim
says on the values the isinstance test classifies as structured: a
`dict` or `list` result is serialized to JSON text
(`Utility.json_dumps`), every other value is returned unchanged; and
the `isinstance(result, (dict, list))` test recognizes precisely the
mapping and list constructors. -/
theorem C6_result_normalization (setting : PyDict) (functions : List FuncDesc)
    (action_function? : String → Option (PyDict → PyVal)) (kwargs kwargs₁ : PyDict)
    (p function_name : String) (σ : List (String × String)) (f : PyDict → PyVal)
    (hpop : pyPop kwargs "path" = some (PyVal.str p, kwargs₁))
    (hyaml : containsSubstring "openapi.yaml".data ("/" ++ p).data = false)
    (hres : get_function_name_and_path_parameters functions ("/" ++ p)
      = some (function_name, σ))
    (hf : action_function? function_name = some f) :
    (isStructured (f (dispatch_kwargs setting kwargs₁ σ)) = true →
      openai_action_dispatch setting functions action_function? kwargs
        = Except.ok (DOut.ret (PyVal.str (jsonDumps (f (dispatch_kwargs setting kwargs₁ σ)))),
            [dispatch_kwargs setting kwargs₁ σ, dispatch_kwargs setting kwargs₁ σ]))
    ∧ (isStructured (f (dispatch_kwargs setting kwargs₁ σ)) = false →
      openai_action_dispatch setting functions action_function? kwargs
        = Except.ok (DOut.ret (f (dispatch_kwargs setting kwargs₁ σ)),
            [dispatch_kwargs setting kwargs₁ σ, dispatch_kwargs setting kwargs₁ σ]))
    ∧ (∀ v : PyVal,
        isStructured v = true ↔ (∃ d, v = PyVal.dict d) ∨ (∃ l, v = PyVal.list l)) := by
  refine ⟨?_, ?_, ?_⟩
  · intro hS
    rw [dispatch_run setting functions action_function? kwargs kwargs₁ p
      function_name σ f hpop hyaml hres hf]
    rw [if_pos hS]
  · intro hS
    rw [dispatch_run setting functions action_function? kwargs kwargs₁ p
      function_name σ f hpop hyaml hres hf]
    rw [if_neg (by simp [hS])]
  · intro v
    cases v <;> simp [isStructured]

theorem C6_witness :
    openai_action_dispatch [] fns₁ action_functions₁
        [("path", PyVal.str "users/42"), ("id", PyVal.int 99)]
      = Except.ok
          (DOut.ret (PyVal.str (jsonDumps
            (handler₁ (dispatch_kwargs [] [("id", PyVal.int 99)] [("id", "42")])))),
           [dispatch_kwargs [] [("id", PyVal.int 99)] [("id", "42")],
            dispatch_kwargs [] [("id", PyVal.int 99)] [("id", "42")]]) :=
  (C6_result_normalization [] fns₁ action_functions₁
    [("path", PyVal.str "users/42"), ("id", PyVal.int 99)] [("id", PyVal.int 99)]
    "users/42" "get_user" [("id", "42")] handler₁
    rfl rfl rfl rfl).1 rfl

/-- C7: main.py line 63 runs `kwargs.pop("path")` with no default, so a
dispatch invoked without a `path` keyword raises an uncontrolled
`KeyError("path")` — not the deliberate `path is required!!` error.
That error is dead code: `path = "/" + kwargs.pop("path")` is a `str`
whenever it is assigned, so the `if path is None` guard on line 64 can
never fire, and no dispatch outcome whatsoever is the
`path is required!!` exception. -/
theorem C7_missing_path_keyerror (setting : PyDict) (functions : List FuncDesc)
    (action_function? : String → Option (PyDict → PyVal)) (kwargs : PyDict)
    (h : lookupFirst kwargs "path" = Option.none) :
    openai_action_dispatch setting functions action_function? kwargs
      = Except.error (PyErr.keyError "path")
    ∧ ∀ (setting' : PyDict) (functions' : List FuncDesc)
        (action_function?' : String → Option (PyDict → PyVal)) (kwargs' : PyDict),
        openai_action_dispatch setting' functions' action_function?' kwargs'
          ≠ Except.error PyErr.pathRequired := by
  constructor
  · have hpop : pyPop kwargs "path" = Option.none := by rw [pyPop, h]
    rw [openai_action_dispatch, hpop]
  · intro setting' functions' action_function?' kwargs' hcontra
    rw [openai_action_dispatch] at hcontra
    cases hp : pyPop kwargs' "path" with
    | none =>
      simp only [hp] at hcontra
      exact PyErr.noConfusion (Except.error.inj hcontra)
    | some pr =>
      obtain ⟨pv, kw₁⟩ := pr
      simp only [hp] at hcontra
      cases pv with
      | str p =>
        simp only [pathIsNone, Bool.false_eq_true, if_false] at hcontra
        by_cases hc : containsSubstring "openapi.yaml".data ("/" ++ p).data
        · simp only [hc, if_true] at hcontra
          exact Except.noConfusion hcontra
        · simp only [Bool.not_eq_true] at hc
          simp only [hc, Bool.false_eq_true, if_false] at hcontra
          cases hres : get_function_name_and_path_parameters functions' ("/" ++ p) with
          | none =>
            simp only [hres] at hcontra
            exact PyErr.noConfusion (Except.error.inj hcontra)
          | some pr₂ =>
            obtain ⟨function_name, σ⟩ := pr₂
            simp only [hres] at hcontra
            cases hf : action_function?' function_name with
            | none =>
              simp only [hf] at hcontra
              exact PyErr.noConfusion (Except.error.inj hcontra)
            | some f =>
              simp only [hf] at hcontra
              by_cases hS : isStructured (f (dispatch_kwargs setting' kw₁ σ))
              · simp only [hS, if_true] at hcontra
                exact Except.noConfusion hcontra
              · simp only [Bool.not_eq_true] at hS
                simp only [hS, Bool.false_eq_true, if_false] at hcontra
                exact Except.noConfusion hcontra
      | none => exact PyErr.noConfusion (Except.error.inj hcontra)
      | bool b => exact PyErr.noConfusion (Except.error.inj hcontra)
      | int n => exact PyErr.noConfusion (Except.error.inj hcontra)
      | list l => exact PyErr.noConfusion (Except.error.inj hcontra)
      | dict d => exact PyErr.noConfusion (Except.error.inj hcontra)

theorem C7_witness :
    openai_action_dispatch [] fns₁ action_functions₁ [("id", PyVal.int 99)]
      = Except.error (PyErr.keyError "path")
    ∧ ∀ (setting' : PyDict) (functions' : List FuncDesc)
        (action_function?' : String → Option (PyDict → PyVal)) (kwargs' : PyDict),
        openai_action_dispatch setting' functions' action_function?' kwargs'
          ≠ Except.error PyErr.pathRequired :=
  C7_missing_path_keyerror [] fns₁ action_functions₁ [("id", PyVal.int 99)] rfl

/-- A descriptor and a loading oracle that always fails: stands for any
resolution/instantiation failure inside the dynamic loading steps. -/
def desc_fail : FuncDesc :=
  { function_name := "do_thing", module_name := "mod", class_name := "Cls",
    path := "/do", configuration := Option.none }

def loadBoom : FuncDesc → Except PyErr (PyDict → PyVal) :=
  fun _ => Except.error (PyErr.exn "instantiation failed")

/-- C8 counterexample: in handlers/function_handler.py
`load_action_function`, a handler-loading failure for a registered
function produces `None` — exactly the same signal an unknown function
name produces — so load failures ARE collapsed into the plain
`not found` signal, contradicting the claim's universal statement. -/
theorem C8_counterexample :
    load_action_function [desc_fail] loadBoom "do_thing" = Option.none
    ∧ load_action_function [desc_fail] loadBoom "unknown_name" = Option.none :=
  ⟨rfl, rfl⟩

/-- C8 (amended): the two loaders differ.  handlers.py
`get_action_function` (the loader the dispatch entry point uses)
re-raises every load failure to its caller and reserves the `None`
signal for a function name absent from the registry; but
handlers/function_handler.py `load_action_function` catches any load
failure, logs it, and returns `None` — collapsing such failures into
the same signal as an unknown function name. -/
theorem C8_load_error_propagation (functions : List FuncDesc)
    (loadDesc : FuncDesc → Except PyErr (PyDict → PyVal)) (function_name : String) :
    (get_action_function functions loadDesc function_name = Except.ok Option.none
      ↔ functions.filter (fun x => x.function_name == function_name) = [])
    ∧ (∀ af rest e,
        functions.filter (fun x => x.function_name == function_name) = af :: rest →
        loadDesc af = Except.error e →
        get_action_function functions loadDesc function_name = Except.error e)
    ∧ (∀ af rest e,
        functions.filter (fun x => x.function_name == function_name) = af :: rest →
        loadDesc af = Except.error e →
        load_action_function functions loadDesc function_name = Option.none) := by
  refine ⟨?_, ?_, ?_⟩
  · cases hfil : functions.filter (fun x => x.function_name == function_name) with
    | nil => simp [get_action_function, hfil]
    | cons af rest =>
      simp only [get_action_function, hfil]
      cases hld : loadDesc af with
      | ok h => simp
      | error e => simp
  · intro af rest e hfil hld
    simp only [get_action_function, hfil]
    rw [hld]
  · intro af rest e hfil hld
    simp only [load_action_function, hfil]
    rw [hld]

theorem C8_witness :
    get_action_function [desc_fail] loadBoom "do_thing"
      = Except.error (PyErr.exn "instantiation failed")
    ∧ load_action_function [desc_fail] loadBoom "do_thing" = Option.none :=
  ⟨(C8_load_error_propagation [desc_fail] loadBoom "do_thing").2.1 desc_fail []
      (PyErr.exn "instantiation failed") rfl rfl,
   (C8_load_error_propagation [desc_fail] loadBoom "do_thing").2.2 desc_fail []
      (PyErr.exn "instantiation failed") rfl rfl⟩

/-- C9 (implicit): every dispatch that resolves an action function and
returns normally invokes the action function exactly twice — the
instrumented call trace is a two-element list — and both calls receive
the same merged keyword arguments (`dispatch_kwargs`); the function is
never called exactly once per request. -/
theorem C9_double_invocation (setting : PyDict) (functions : List FuncDesc)
    (action_function? : String → Option (PyDict → PyVal)) (kwargs kwargs₁ : PyDict)
    (p function_name : String) (σ : List (String × String)) (f : PyDict → PyVal)
    (hpop : pyPop kwargs "path" = some (PyVal.str p, kwargs₁))
    (hyaml : containsSubstring "openapi.yaml".data ("/" ++ p).data = false)
    (hres : get_function_name_and_path_parameters functions ("/" ++ p)
      = some (function_name, σ))
    (hf : action_function? function_name = some f) :
    ∃ out, openai_action_dispatch setting functions action_function? kwargs
        = Except.ok (out, [dispatch_kwargs setting kwargs₁ σ, dispatch_kwargs setting kwargs₁ σ])
      ∧ [dispatch_kwargs setting kwargs₁ σ, dispatch_kwargs setting kwargs₁ σ].length = 2 :=
  ⟨_, dispatch_run setting functions action_function? kwargs kwargs₁ p
      function_name σ f hpop hyaml hres hf, rfl⟩

theorem C9_witness :
    ∃ out, openai_action_dispatch [("title", PyVal.str "engine")] fns₁ action_functions₁
        [("path", PyVal.str "users/7")]
        = Except.ok (out, [dispatch_kwargs [("title", PyVal.str "engine")] [] [("id", "7")],
                           dispatch_kwargs [("title", PyVal.str "engine")] [] [("id", "7")]])
      ∧ [dispatch_kwargs [("title", PyVal.str "engine")] [] [("id", "7")],
         dispatch_kwargs [("title", PyVal.str "engine")] [] [("id", "7")]].length = 2 :=
  C9_double_invocation [("title", PyVal.str "engine")] fns₁ action_functions₁
    [("path", PyVal.str "users/7")] [] "users/7" "get_user" [("id", "7")] handler₁
    rfl rfl rfl rfl

/-- C10 (implicit): on a non-short-circuited dispatch, the keyword
arguments handed to the action function contain every setting whose key
is not in `SYSTEM_CONSTANTS`, with caller-supplied request parameters
overriding same-named settings and path-extracted parameters
overriding both; a key in `SYSTEM_CONSTANTS` is looked up only among
the request and path parameters — its setting value is never passed. -/
theorem C10_settings_merge (setting : PyDict) (functions : List FuncDesc)
    (action_function? : String → Option (PyDict → PyVal)) (kwargs kwargs₁ : PyDict)
    (p function_name : String) (σ : List (String × String)) (f : PyDict → PyVal)
    (hpop : pyPop kwargs "path" = some (PyVal.str p, kwargs₁))
    (hyaml : containsSubstring "openapi.yaml".data ("/" ++ p).data = false)
    (hres : get_function_name_and_path_parameters functions ("/" ++ p)
      = some (function_name, σ))
    (hf : action_function? function_name = some f)
    (hreq : (keys kwargs₁).Nodup) (hσ : (keys σ).Nodup) (k : String) :
    ∃ out, openai_action_dispatch setting functions action_function? kwargs
        = Except.ok (out, [dispatch_kwargs setting kwargs₁ σ, dispatch_kwargs setting kwargs₁ σ])
      ∧ lookupFirst (dispatch_kwargs setting kwargs₁ σ) k
        = ((lookupFirst σ k).map PyVal.str).orElse (fun _ =>
            (lookupFirst kwargs₁ k).orElse (fun _ =>
              if SYSTEM_CONSTANTS.contains k then Option.none else lookupFirst setting k)) := by
  refine ⟨_, dispatch_run setting functions action_function? kwargs kwargs₁ p
    function_name σ f hpop hyaml hres hf, ?_⟩
  rw [dispatch_kwargs]
  rw [lookupFirst_pyDictUpdate _ _ _ (by rw [keys_map_val]; exact hσ)]
  rw [lookupFirst_map_val]
  rw [lookupFirst_pyDictUpdate _ _ _ hreq]
  have hfk : ∀ (d : PyDict) (k' : String),
      lookupFirst (d.filter (fun kv => !(SYSTEM_CONSTANTS.contains kv.1))) k'
        = if !(SYSTEM_CONSTANTS.contains k') then lookupFirst d k' else Option.none :=
    fun d k' => lookupFirst_filter_keys d (fun s => !(SYSTEM_CONSTANTS.contains s)) k'
  simp only [hfk]
  by_cases hc : SYSTEM_CONSTANTS.contains k
  · simp [hc]
  · simp [hc]

theorem C10_witness :
    ∃ out, openai_action_dispatch
        [("region_name", PyVal.str "us-east-1"), ("endpoint", PyVal.str "https://api")]
        fns₁ action_functions₁ [("path", PyVal.str "users/42"), ("id", PyVal.int 99)]
        = Except.ok (out,
            [dispatch_kwargs
              [("region_name", PyVal.str "us-east-1"), ("endpoint", PyVal.str "https://api")]
              [("id", PyVal.int 99)] [("id", "42")],
             dispatch_kwargs
              [("region_name", PyVal.str "us-east-1"), ("endpoint", PyVal.str "https://api")]
              [("id", PyVal.int 99)] [("id", "42")]])
      ∧ lookupFirst (dispatch_kwargs
            [("region_name", PyVal.str "us-east-1"), ("endpoint", PyVal.str "https://api")]
            [("id", PyVal.int 99)] [("id", "42")]) "region_name"
        = ((lookupFirst [("id", "42")] "region_name").map PyVal.str).orElse (fun _ =>
            (lookupFirst [("id", PyVal.int 99)] "region_name").orElse (fun _ =>
              if SYSTEM_CONSTANTS.contains "region_name" then Option.none
              else lookupFirst
                [("region_name", PyVal.str "us-east-1"), ("endpoint", PyVal.str "https://api")]
                "region_name")) :=
  C10_settings_merge
    [("region_name", PyVal.str "us-east-1"), ("endpoint", PyVal.str "https://api")]
    fns₁ action_functions₁ [("path", PyVal.str "users/42"), ("id", PyVal.int 99)]
    [("id", PyVal.int 99)] "users/42" "get_user" [("id", "42")] handler₁
    rfl rfl rfl rfl (by decide) (by decide) "region_name"

end OpenaiActionEngine
